import Mathlib

/-!
Shallow embedding of `bisheng_langchain/rag/bisheng_rag_tool.py`
(class `BishengRAGTool`): the budget cutoff and optional coherence
reorder of `retrieval_and_rerank`, the answer synthesis wrapper `run`
and its async variant `arun`, and the retriever-type resolution of
`_post_init_retriever`.  The ensemble fusion (`EnsembleRetriever`) is
not part of this file's source; it is modelled from the specification
where a claim needs it.
-/

namespace BishengRag

/-- The two metadata entries the source reads from a langchain
`Document.metadata` dict: `metadata['source']` and
`metadata['chunk_index']`.  `none` models an absent key. -/
structure DocMetadata where
  source : Option String
  chunk_index : Option Int
deriving DecidableEq, Repr

/-- A langchain `Document` as used by `retrieval_and_rerank`:
`page_content` plus the metadata entries the code consults. -/
structure Document where
  page_content : String
  metadata : DocMetadata
deriving DecidableEq, Repr

/-- Total length of `page_content` over a list of documents,
`sum(len(doc.page_content) for doc in docs)`. -/
def contentSum (docs : List Document) : Nat :=
  (docs.map (fun d => d.page_content.length)).sum

/-- The loop of lines 116-121: starting from running sum `s`, count how
many leading documents are kept.  Each step adds `len(doc.page_content)`
to the running sum, breaks as soon as the sum exceeds `maxContent`, and
otherwise increments the count (`doc_num`). -/
def docNumFrom (maxContent : Nat) : List Document → Nat → Nat
  | [], _ => 0
  | d :: ds, s =>
    if s + d.page_content.length > maxContent then 0
    else docNumFrom maxContent ds (s + d.page_content.length) + 1

/-- `doc_num` computed from the initial sums `doc_num, doc_content_sum = 0, 0`. -/
def docNum (docs : List Document) (maxContent : Nat) : Nat :=
  docNumFrom maxContent docs 0

/-- Lines 115-122 (`# delete redundancy according to max_content`):
`docs = docs[:doc_num]`. -/
def deleteRedundancy (docs : List Document) (maxContent : Nat) : List Document :=
  docs.take (docNum docs maxContent)

/-- Whether the sort key `(x.metadata['source'], x.metadata['chunk_index'])`
of line 128 can be built: both dict lookups must succeed, otherwise the
lambda raises `KeyError`. -/
def sortKeyDefined (d : Document) : Bool :=
  d.metadata.source.isSome && d.metadata.chunk_index.isSome

/-- The sort key of line 128, with dummy defaults; it is only ever
meaningful on documents satisfying `sortKeyDefined`. -/
def keyOf (d : Document) : String × Int :=
  (d.metadata.source.getD "", d.metadata.chunk_index.getD 0)

/-- Python tuple comparison on `(str, int)` keys, as `sorted` uses it:
lexicographic, strings by code point. -/
def keyLe (a b : String × Int) : Bool :=
  decide (a.1 < b.1) || (decide (a.1 = b.1) && decide (a.2 ≤ b.2))

/-- Document comparison used by `sorted(docs, key=lambda x: (x.metadata['source'],
x.metadata['chunk_index']))`. -/
def docLe (a b : Document) : Bool :=
  keyLe (keyOf a) (keyOf b)

/-- `retrieval_and_rerank` after the retriever call (lines 115-129): the
budget cutoff, then, when `post_retrieval.sort_by_source_and_index` is
set, the coherence sort.  `sorted` evaluates the key on every element,
so a surviving document missing either metadata key makes the call raise
`KeyError` instead of returning a context. -/
def retrieval_and_rerank (docs : List Document) (maxContent : Nat)
    (sortFlag : Bool) : Except String (List Document) :=
  let kept := deleteRedundancy docs maxContent
  if sortFlag then
    if kept.all sortKeyDefined then
      Except.ok (kept.mergeSort docLe)
    else
      Except.error "KeyError"
  else
    Except.ok kept

/-- Exceptions that can escape `run`: a `KeyError` propagating out of
`retrieval_and_rerank`, or the `NameError` raised by the except handler
itself (line 136 interpolates the undefined name `question`). -/
inductive RunError where
  | keyError (msg : String)
  | nameError (nm : String)
deriving DecidableEq, Repr

/-- `run` (lines 131-139).  The qa-chain call is an external
collaborator, passed in as `chain`; `Except.error e` models the chain
raising with message `str(e)`.  When the chain raises, control enters
the except handler, whose first statement evaluates
`f'question: {question}\nerror: {e}'`; the name `question` is not bound
anywhere in scope (the parameter is `query`), so the handler raises
`NameError` and that exception escapes `run` instead of the diagnostic
answer `ans = \x7b'output_text': str(e)\x7d` ever being produced. -/
def run (chain : List Document → String → Except String String)
    (docs : List Document) (maxContent : Nat) (sortFlag : Bool)
    (query : String) : Except RunError String :=
  match retrieval_and_rerank docs maxContent sortFlag with
  | Except.error m => Except.error (RunError.keyError m)
  | Except.ok kept =>
    match chain kept query with
    | Except.ok ans => Except.ok ans
    | Except.error _ => Except.error (RunError.nameError "question")

/-- `arun` (lines 141-143): it just calls `self.run(query)`. -/
def arun (chain : List Document → String → Except String String)
    (docs : List Document) (maxContent : Nat) (sortFlag : Bool)
    (query : String) : Except RunError String :=
  run chain docs maxContent sortFlag query

/-- Deduplication identity of a chunk, the pair
`(source, chunk_index)` (spec section 3). -/
def chunkId (d : Document) : Option String × Option Int :=
  (d.metadata.source, d.metadata.chunk_index)

/-- Modelled from the spec: `EnsembleRetriever.get_relevant_documents`
(from `bisheng_langchain.retrievers`) is not among the source files;
per spec section 4.2 the fused list is deduplicated by
`(source, chunk_index)` identity, keeping the first-seen instance in
retriever-configuration order. -/
def dedup : List Document → List Document
  | [] => []
  | d :: ds => d :: dedup (ds.filter (fun x => decide (chunkId x ≠ chunkId d)))
termination_by l => l.length
decreasing_by
  simp only [List.length_cons]
  exact Nat.lt_succ_of_le (List.length_filter_le _ _)

/-- The contribution of one retriever outcome to the merge: a failing
retriever contributes nothing (spec section 4.2, graceful degradation). -/
def okDocs (o : Except String (List Document)) : List Document :=
  match o with
  | Except.ok ds => ds
  | Except.error _ => []

/-- Modelled from the spec: the Fusion Engine (spec section 4.2)
concatenates the retrievers' outputs in configuration order, dropping a
failing retriever's contribution (graceful degradation, the default
policy), and deduplicates by `(source, chunk_index)` keeping the
first-seen instance. -/
def fuse (outs : List (Except String (List Document))) : List Document :=
  dedup (List.flatten (outs.map okDocs))

/-- `run` composed with the spec-modelled fusion: the documents handed
to the budget cutoff are the fused, deduplicated candidates. -/
def runEnsemble (chain : List Document → String → Except String String)
    (outs : List (Except String (List Document))) (maxContent : Nat)
    (sortFlag : Bool) (query : String) : Except RunError String :=
  run chain (fuse outs) maxContent sortFlag query

/-- The closed set of retriever variants of `_post_init_retriever`
(lines 79-84). -/
inductive RetrieverClass where
  | keywordRetriever
  | baselineVectorRetriever
  | mixRetriever
  | smallerChunksVectorRetriever
deriving DecidableEq, Repr

/-- `_post_init_retriever` (lines 78-86) restricted to what decides
success: resolving the `type` string through the fixed
`retriever_classes` table, raising
`ValueError(f'Unknown retriever type: ...')` on a miss. -/
def post_init_retriever (ty : String) : Except String RetrieverClass :=
  if ty = "KeywordRetriever" then Except.ok RetrieverClass.keywordRetriever
  else if ty = "BaselineVectorRetriever" then Except.ok RetrieverClass.baselineVectorRetriever
  else if ty = "MixRetriever" then Except.ok RetrieverClass.mixRetriever
  else if ty = "SmallerChunksVectorRetriever" then Except.ok RetrieverClass.smallerChunksVectorRetriever
  else Except.error ("Unknown retriever type: " ++ ty)

/-- The construction loop of `__init__` (lines 52-63): each configured
retriever type is resolved during construction; the first unknown type
raises and construction fails. -/
def initRetrievers : List String → Except String (List RetrieverClass)
  | [] => Except.ok []
  | ty :: tys =>
    match post_init_retriever ty with
    | Except.error m => Except.error m
    | Except.ok c =>
      match initRetrievers tys with
      | Except.error m => Except.error m
      | Except.ok cs => Except.ok (c :: cs)

/-- Sample document: three characters of content, identity `("A", 0)`. -/
def dA0 : Document := ⟨"aaa", ⟨some "A", some 0⟩⟩

/-- Sample document: three characters of content, identity `("A", 1)`. -/
def dA1 : Document := ⟨"bbb", ⟨some "A", some 1⟩⟩

/-- Sample document: three characters of content, identity `("B", 0)`. -/
def dB0 : Document := ⟨"ccc", ⟨some "B", some 0⟩⟩

/-- Sample document with empty content. -/
def dEmpty : Document := ⟨"", ⟨some "E", some 0⟩⟩

/-- Sample document carrying neither `source` nor `chunk_index`. -/
def dNoMeta : Document := ⟨"xx", ⟨none, none⟩⟩

/-! ### Lemmas about the budget-cutoff loop -/

theorem docNumFrom_le_length (maxContent : Nat) (ds : List Document) :
    ∀ s : Nat, docNumFrom maxContent ds s ≤ ds.length := by
  induction ds with
  | nil => intro s; simp [docNumFrom]
  | cons d tl ih =>
    intro s
    simp only [docNumFrom, List.length_cons]
    by_cases hgt : s + d.page_content.length > maxContent
    · rw [if_pos hgt]; omega
    · rw [if_neg hgt]
      have := ih (s + d.page_content.length)
      omega

theorem docNumFrom_lt_iff (maxContent : Nat) (ds : List Document) :
    ∀ s i : Nat, i < ds.length →
      (i < docNumFrom maxContent ds s ↔
        s + contentSum (ds.take (i + 1)) ≤ maxContent) := by
  induction ds with
  | nil => intro s i h; simp at h
  | cons d tl ih =>
    intro s i h
    match i with
    | 0 =>
      simp only [docNumFrom, List.take_succ_cons, List.take_zero]
      have hc : contentSum [d] = d.page_content.length := by
        simp [contentSum]
      by_cases hgt : s + d.page_content.length > maxContent
      · rw [if_pos hgt, hc]; omega
      · rw [if_neg hgt, hc]; omega
    | i + 1 =>
      have hi : i < tl.length := by
        simpa using Nat.lt_of_succ_lt_succ h
      simp only [docNumFrom, List.take_succ_cons]
      have hc : contentSum (d :: tl.take (i + 1))
          = d.page_content.length + contentSum (tl.take (i + 1)) := by
        simp [contentSum]
      by_cases hgt : s + d.page_content.length > maxContent
      · rw [if_pos hgt, hc]; omega
      · rw [if_neg hgt, hc]
        have := ih (s + d.page_content.length) i hi
        omega

theorem docNumFrom_sum_le (maxContent : Nat) (ds : List Document) :
    ∀ s : Nat, s ≤ maxContent →
      s + contentSum (ds.take (docNumFrom maxContent ds s)) ≤ maxContent := by
  induction ds with
  | nil =>
    intro s hs
    simpa [docNumFrom, contentSum] using hs
  | cons d tl ih =>
    intro s hs
    simp only [docNumFrom]
    by_cases hgt : s + d.page_content.length > maxContent
    · rw [if_pos hgt]
      simpa [contentSum] using hs
    · rw [if_neg hgt, List.take_succ_cons]
      have hc : contentSum (d :: tl.take (docNumFrom maxContent tl (s + d.page_content.length)))
          = d.page_content.length
            + contentSum (tl.take (docNumFrom maxContent tl (s + d.page_content.length))) := by
        simp [contentSum]
      rw [hc]
      have := ih (s + d.page_content.length) (by omega)
      omega

theorem docNumFrom_stop_pos (maxContent : Nat) (ds : List Document) :
    ∀ s : Nat, s ≤ maxContent → ∀ e : Document,
      ds[docNumFrom maxContent ds s]? = some e → e.page_content.length ≠ 0 := by
  induction ds with
  | nil => intro s _ e he; simp at he
  | cons d tl ih =>
    intro s hs e he
    by_cases hgt : s + d.page_content.length > maxContent
    · rw [docNumFrom, if_pos hgt] at he
      simp only [List.getElem?_cons_zero, Option.some.injEq] at he
      subst he
      intro h0
      omega
    · rw [docNumFrom, if_neg hgt] at he
      simp only [List.getElem?_cons_succ] at he
      exact ih (s + d.page_content.length) (by omega) e he

theorem docNumFrom_zeros_le (maxContent : Nat) (ds : List Document) :
    ∀ s k : Nat, s ≤ maxContent →
      (∀ d ∈ ds.take k, d.page_content.length = 0) →
      min k ds.length ≤ docNumFrom maxContent ds s := by
  induction ds with
  | nil => intro s k _ _; simp
  | cons d tl ih =>
    intro s k hs hz
    match k with
    | 0 => simp
    | k + 1 =>
      have hd : d.page_content.length = 0 := by
        refine hz d ?_
        rw [List.take_succ_cons]
        exact List.mem_cons_self d _
      have hgt : ¬ s + d.page_content.length > maxContent := by omega
      simp only [docNumFrom, if_neg hgt, List.length_cons, Nat.succ_min_succ]
      have hz' : ∀ x ∈ tl.take k, x.page_content.length = 0 := by
        intro x hx
        refine hz x ?_
        rw [List.take_succ_cons]
        exact List.mem_cons_of_mem d hx
      have := ih (s + d.page_content.length) k (by omega) hz'
      omega

/-! ### Lemmas about the spec-modelled deduplication -/

theorem dedup_subset (l : List Document) : ∀ x ∈ dedup l, x ∈ l := by
  induction l using dedup.induct with
  | case1 => simp [dedup]
  | case2 d ds ih =>
    intro x hx
    rw [dedup] at hx
    rcases List.mem_cons.mp hx with h | h
    · simp [h]
    · exact List.mem_cons_of_mem d (List.mem_of_mem_filter (ih x h))

theorem find?_filter_of_imp (p q : Document → Bool)
    (hpq : ∀ y, p y = true → q y = true) :
    ∀ l : List Document, (l.filter q).find? p = l.find? p := by
  intro l
  induction l with
  | nil => simp
  | cons a tl ih =>
    by_cases hp : p a = true
    · rw [List.filter_cons_of_pos (hpq a hp), List.find?_cons_of_pos _ hp,
        List.find?_cons_of_pos _ hp]
    · have hp' : ¬ p a = true := hp
      by_cases hq : q a = true
      · rw [List.filter_cons_of_pos hq, List.find?_cons_of_neg _ hp',
          List.find?_cons_of_neg _ hp', ih]
      · rw [List.filter_cons_of_neg (by simpa using hq),
          List.find?_cons_of_neg _ hp', ih]

theorem mem_dedup_iff (l : List Document) :
    ∀ d : Document, d ∈ dedup l ↔
      l.find? (fun x => decide (chunkId x = chunkId d)) = some d := by
  induction l using dedup.induct with
  | case1 => intro d; simp [dedup]
  | case2 a tl ih =>
    intro d
    rw [dedup]
    constructor
    · intro hx
      rcases List.mem_cons.mp hx with h | h
      · subst h
        exact List.find?_cons_of_pos _ (by simp)
      · have hmem := dedup_subset _ d h
        have hne : chunkId d ≠ chunkId a := by
          have := List.of_mem_filter hmem
          simpa using this
        have hfirst := (ih d).mp h
        rw [find?_filter_of_imp _ _ ?_ tl] at hfirst
        · rw [List.find?_cons_of_neg _ (by simpa using fun h' => hne h'.symm)]
          exact hfirst
        · intro y hy
          have : chunkId y = chunkId d := by simpa using hy
          simpa using this ▸ hne
    · intro hf
      by_cases ha : chunkId a = chunkId d
      · rw [List.find?_cons_of_pos _ (by simpa using ha)] at hf
        have : a = d := by simpa using hf
        simp [this]
      · rw [List.find?_cons_of_neg _ (by simpa using ha)] at hf
        have hne : chunkId d ≠ chunkId a := fun h' => ha h'.symm
        have hf' : (tl.filter (fun x => decide (chunkId x ≠ chunkId a))).find?
            (fun x => decide (chunkId x = chunkId d)) = some d := by
          rw [find?_filter_of_imp _ _ ?_ tl]
          · exact hf
          · intro y hy
            have : chunkId y = chunkId d := by simpa using hy
            simpa using this ▸ hne
        exact List.mem_cons_of_mem a ((ih d).mpr hf')

theorem dedup_pairwise (l : List Document) :
    (dedup l).Pairwise (fun a b => chunkId a ≠ chunkId b) := by
  induction l using dedup.induct with
  | case1 => simp [dedup]
  | case2 a tl ih =>
    rw [dedup]
    refine List.Pairwise.cons ?_ ih
    intro b hb
    have hbf := dedup_subset _ b hb
    have := List.of_mem_filter hbf
    have hne : chunkId b ≠ chunkId a := by simpa using this
    exact fun h' => hne h'.symm

/-! ### The tuple comparator is a total preorder -/

theorem keyLe_trans (a b c : String × Int) :
    keyLe a b = true → keyLe b c = true → keyLe a c = true := by
  simp only [keyLe, Bool.or_eq_true, Bool.and_eq_true, decide_eq_true_eq]
  rintro (h1 | ⟨h1, h1'⟩) (h2 | ⟨h2, h2'⟩)
  · exact Or.inl (lt_trans h1 h2)
  · exact Or.inl (lt_of_lt_of_le h1 (le_of_eq h2))
  · exact Or.inl (lt_of_le_of_lt (le_of_eq h1) h2)
  · exact Or.inr ⟨h1.trans h2, le_trans h1' h2'⟩

theorem keyLe_total (a b : String × Int) :
    (keyLe a b || keyLe b a) = true := by
  simp only [keyLe, Bool.or_eq_true, Bool.and_eq_true, decide_eq_true_eq]
  rcases lt_trichotomy a.1 b.1 with h | h | h
  · exact Or.inl (Or.inl h)
  · rcases le_total a.2 b.2 with h2 | h2
    · exact Or.inl (Or.inr ⟨h, h2⟩)
    · exact Or.inr (Or.inr ⟨h.symm, h2⟩)
  · exact Or.inr (Or.inl h)

theorem docLe_trans (a b c : Document) :
    docLe a b = true → docLe b c = true → docLe a c = true :=
  keyLe_trans (keyOf a) (keyOf b) (keyOf c)

theorem docLe_total (a b : Document) :
    (docLe a b || docLe b a) = true :=
  keyLe_total (keyOf a) (keyOf b)

/-! ### Small list helpers -/

theorem take_take_of_min_le {α : Type} (l : List α) :
    ∀ k n : Nat, min k l.length ≤ n → l.take k = (l.take n).take k := by
  induction l with
  | nil => intro k n _; simp
  | cons a tl ih =>
    intro k n h
    match k, n with
    | 0, _ => simp
    | k + 1, 0 =>
      exfalso
      simp [Nat.succ_min_succ] at h
    | k + 1, n + 1 =>
      simp only [List.length_cons, Nat.succ_min_succ] at h
      simp only [List.take_succ_cons]
      rw [ih k n (by omega)]

theorem contentSum_cons (d : Document) (l : List Document) :
    contentSum (d :: l) = d.page_content.length + contentSum l := by
  simp [contentSum]

theorem contentSum_eq_zero (l : List Document) (h : contentSum l = 0) :
    ∀ d ∈ l, d.page_content.length = 0 := by
  induction l with
  | nil => intro d hd; simp at hd
  | cons a tl ih =>
    rw [contentSum_cons] at h
    intro d hd
    rcases List.mem_cons.mp hd with h1 | h1
    · subst h1; omega
    · exact ih (by omega) d h1

/-! ### The claims -/

/-- Claim C1: the context assembled by the budget cutoff of
`retrieval_and_rerank` (before any optional reorder) is a leading
segment of the fused candidate list, its total content length is at
most `max_content`, and the walk stops exactly at the first candidate
whose inclusion would push the running sum over the budget: a candidate
at position `i` is included iff the cumulative content length through
position `i` fits, so no later, smaller candidate is ever substituted
in. -/
theorem C1_budget_cutoff (docs : List Document) (maxContent : Nat) :
    (∃ rest, deleteRedundancy docs maxContent ++ rest = docs)
    ∧ contentSum (deleteRedundancy docs maxContent) ≤ maxContent
    ∧ ∀ i : Nat, i < docs.length →
        (i < docNum docs maxContent ↔
          contentSum (docs.take (i + 1)) ≤ maxContent) := by
  refine ⟨⟨docs.drop (docNum docs maxContent), List.take_append_drop _ _⟩, ?_, ?_⟩
  · have := docNumFrom_sum_le maxContent docs 0 (Nat.zero_le _)
    simpa [deleteRedundancy, docNum] using this
  · intro i hi
    have := docNumFrom_lt_iff maxContent docs 0 i hi
    simpa [docNum] using this

/-- Claim C1 witness: with three 3-character candidates and a budget of
5, the assembled context fits the budget and the second candidate is
exactly the first one left out. -/
theorem C1_budget_cutoff_witness :
    contentSum (deleteRedundancy [dA0, dA1, dB0] 5) ≤ 5
    ∧ (1 < docNum [dA0, dA1, dB0] 5 ↔
        contentSum ([dA0, dA1, dB0].take 2) ≤ 5) :=
  ⟨(C1_budget_cutoff [dA0, dA1, dB0] 5).2.1,
   (C1_budget_cutoff [dA0, dA1, dB0] 5).2.2 1 (by decide)⟩

/-- Claim C2 (code bug): the claim says any failure of the qa-chain
call is contained inside `run` and surfaced as the answer text, but
when the chain raises, the except handler's log statement interpolates
the undefined name `question` (the parameter is `query`), so a
`NameError` escapes `run` instead.  Evaluated at a chain raising
`Timeout`. -/
theorem C2_run_raises_on_chain_failure :
    run (fun _ _ => Except.error "Timeout") [] 100 false "q"
      = Except.error (RunError.nameError "question") := rfl

/-- Claim C8: `arun` returns exactly what `run` returns on every
input; it is a direct delegation. -/
theorem C8_arun_eq_run (chain : List Document → String → Except String String)
    (docs : List Document) (maxContent : Nat) (sortFlag : Bool)
    (query : String) :
    arun chain docs maxContent sortFlag query
      = run chain docs maxContent sortFlag query := rfl

/-- Claim C3 (fusion modelled from the spec, section 4.2): when the
middle one of three configured retrievers raises a transport error, the
fused candidate list equals the deduplicated merge of the two remaining
outputs, and `run` on top of this fusion returns normally whenever the
downstream chain call does — the failure does not escape. -/
theorem C3_graceful_degradation (as cs : List Document) (e query ans : String)
    (maxContent : Nat)
    (chain : List Document → String → Except String String)
    (hchain : chain (deleteRedundancy (dedup (as ++ cs)) maxContent) query
      = Except.ok ans) :
    fuse [Except.ok as, Except.error e, Except.ok cs] = dedup (as ++ cs)
    ∧ runEnsemble chain [Except.ok as, Except.error e, Except.ok cs]
        maxContent false query = Except.ok ans := by
  have hf : fuse [Except.ok as, Except.error e, Except.ok cs]
      = dedup (as ++ cs) := by
    simp [fuse, okDocs]
  refine ⟨hf, ?_⟩
  simp only [runEnsemble, hf, run, retrieval_and_rerank, if_neg Bool.false_ne_true]
  simp [hchain]

/-- Claim C3 witness: retrievers one and three return overlapping
results, retriever two fails; the fused list is the dedup of the two
live outputs and `run` answers normally. -/
theorem C3_graceful_degradation_witness :
    fuse [Except.ok [dA0], Except.error "transport", Except.ok [dA0, dB0]]
      = dedup ([dA0] ++ [dA0, dB0])
    ∧ runEnsemble (fun _ _ => Except.ok "ans")
        [Except.ok [dA0], Except.error "transport", Except.ok [dA0, dB0]]
        10 false "q" = Except.ok "ans" :=
  C3_graceful_degradation [dA0] [dA0, dB0] "transport" "q" "ans" 10
    (fun _ _ => Except.ok "ans") rfl

/-- Claim C4: the coherence reorder is applied strictly after the
budget cutoff, so enabling `sort_by_source_and_index` never changes
which chunks survive, only their order: with the flag off the context
is exactly the budget-cutoff result, and any context returned with the
flag on is a permutation of that same result, sorted ascending by the
`(source, chunk_index)` key. -/
theorem C4_reorder_post_truncation (docs out : List Document)
    (maxContent : Nat)
    (hout : retrieval_and_rerank docs maxContent true = Except.ok out) :
    retrieval_and_rerank docs maxContent false
        = Except.ok (deleteRedundancy docs maxContent)
    ∧ out.Perm (deleteRedundancy docs maxContent)
    ∧ out.Pairwise (fun a b => docLe a b = true) := by
  have hoff : retrieval_and_rerank docs maxContent false
      = Except.ok (deleteRedundancy docs maxContent) := by
    simp [retrieval_and_rerank]
  by_cases hall : (deleteRedundancy docs maxContent).all sortKeyDefined = true
  · have hout' : out = (deleteRedundancy docs maxContent).mergeSort docLe := by
      simp only [retrieval_and_rerank, if_pos rfl, hall] at hout
      simpa using hout.symm
    subst hout'
    exact ⟨hoff, List.mergeSort_perm _ _,
      List.sorted_mergeSort docLe_trans docLe_total _⟩
  · exfalso
    simp [retrieval_and_rerank, hall] at hout

/-- Claim C4 witness: two in-budget candidates arriving in the order
`("A",1)`, `("A",0)`; the flag-on call succeeds and its output is a
sorted permutation of the flag-off context. -/
theorem C4_reorder_post_truncation_witness :
    retrieval_and_rerank [dA1, dA0] 100 false
        = Except.ok (deleteRedundancy [dA1, dA0] 100)
    ∧ List.Perm ([dA1, dA0].mergeSort docLe) (deleteRedundancy [dA1, dA0] 100)
    ∧ List.Pairwise (fun a b => docLe a b = true) ([dA1, dA0].mergeSort docLe) := by
  refine C4_reorder_post_truncation [dA1, dA0] _ 100 ?_
  simp only [retrieval_and_rerank]
  rw [show deleteRedundancy [dA1, dA0] 100 = [dA1, dA0] from by decide,
    if_pos trivial, if_pos (by decide)]

/-- Claim C5 counterexample: with `max_content = 0` the assembled
context is not always empty — a candidate whose content is the empty
string survives the cutoff, and the synthesis call then receives one
evidence document. -/
theorem C5_counterexample :
    retrieval_and_rerank [dEmpty] 0 false = Except.ok [dEmpty]
    ∧ [dEmpty] ≠ ([] : List Document) := by
  constructor
  · simp only [retrieval_and_rerank, if_neg Bool.false_ne_true]
    rw [show deleteRedundancy [dEmpty] 0 = [dEmpty] from by decide]
  · decide

/-- Claim C5 (amended): with `max_content = 0` every chunk of the
assembled context has zero-length content; when moreover every
candidate has non-empty content, the context is empty and synthesis is
invoked with no evidence documents, and the pipeline still returns the
chain's answer string whenever that call succeeds. -/
theorem C5_zero_budget (docs : List Document)
    (chain : List Document → String → Except String String)
    (query ans : String) :
    (∀ d ∈ deleteRedundancy docs 0, d.page_content.length = 0)
    ∧ ((∀ d ∈ docs, d.page_content.length ≠ 0) →
        deleteRedundancy docs 0 = [])
    ∧ ((∀ d ∈ docs, d.page_content.length ≠ 0) →
        chain [] query = Except.ok ans →
        run chain docs 0 false query = Except.ok ans) := by
  have hsum : contentSum (deleteRedundancy docs 0) = 0 := by
    have := docNumFrom_sum_le 0 docs 0 (Nat.le_refl 0)
    simpa [deleteRedundancy, docNum] using this
  have hempty : (∀ d ∈ docs, d.page_content.length ≠ 0) →
      deleteRedundancy docs 0 = [] := by
    intro hnz
    match hd : docs with
    | [] => simp [deleteRedundancy, docNum, docNumFrom]
    | d :: tl =>
      have hlen : d.page_content.length ≠ 0 := hnz d (List.mem_cons_self d tl)
      have : docNum (d :: tl) 0 = 0 := by
        simp only [docNum, docNumFrom]
        rw [if_pos (by omega)]
      simp [deleteRedundancy, this]
  refine ⟨contentSum_eq_zero _ hsum, hempty, ?_⟩
  intro hnz hchain
  simp only [run, retrieval_and_rerank, if_neg Bool.false_ne_true,
    hempty hnz, hchain]

/-- Claim C5 witness: one non-empty candidate, budget 0: the context is
empty and `run` returns the chain's policy answer. -/
theorem C5_zero_budget_witness :
    run (fun _ _ => Except.ok "insufficient context") [dA0] 0 false "q"
      = Except.ok "insufficient context" :=
  (C5_zero_budget [dA0] (fun _ _ => Except.ok "insufficient context")
    "q" "insufficient context").2.2 (by decide) rfl

/-- Claim C6 (fusion modelled from the spec, section 4.2): the fused
candidate list holds no two chunks with the same
`(source, chunk_index)` identity, and a chunk belongs to the fused list
iff it is the first chunk bearing its identity in the concatenation of
the retrievers' outputs in configuration order — so exactly one
instance per identity is kept, the first-seen one, with no score
consulted. -/
theorem C6_dedup_first_seen (outs : List (Except String (List Document))) :
    (fuse outs).Pairwise (fun a b => chunkId a ≠ chunkId b)
    ∧ ∀ d : Document, d ∈ fuse outs ↔
        (List.flatten (outs.map okDocs)).find?
          (fun x => decide (chunkId x = chunkId d)) = some d :=
  ⟨dedup_pairwise _, fun d => mem_dedup_iff _ d⟩

/-- Claim C7: a configured retriever type outside the four known
variants makes construction fail with `Unknown retriever type: ...`;
no orchestrator instance is built, so the error cannot surface at
request time instead. -/
theorem C7_unknown_type_fails_construction (tys : List String) (t : String)
    (hmem : t ∈ tys)
    (hunk : t ≠ "KeywordRetriever" ∧ t ≠ "BaselineVectorRetriever"
      ∧ t ≠ "MixRetriever" ∧ t ≠ "SmallerChunksVectorRetriever") :
    ∃ msg, initRetrievers tys = Except.error msg := by
  induction tys with
  | nil => simp at hmem
  | cons a tl ih =>
    rcases List.mem_cons.mp hmem with h | h
    · subst h
      have hpost : post_init_retriever t
          = Except.error ("Unknown retriever type: " ++ t) := by
        simp [post_init_retriever, hunk.1, hunk.2.1, hunk.2.2.1, hunk.2.2.2]
      exact ⟨"Unknown retriever type: " ++ t, by simp [initRetrievers, hpost]⟩
    · rcases ih h with ⟨m, hm⟩
      cases hp : post_init_retriever a with
      | error m2 => exact ⟨m2, by simp [initRetrievers, hp]⟩
      | ok c => exact ⟨m, by simp [initRetrievers, hp, hm]⟩

/-- Claim C7 witness: a configuration listing a known type followed by
`FooRetriever` fails to construct. -/
theorem C7_unknown_type_fails_construction_witness :
    ∃ msg, initRetrievers ["KeywordRetriever", "FooRetriever"]
      = Except.error msg :=
  C7_unknown_type_fails_construction _ "FooRetriever" (by decide)
    ⟨by decide, by decide, by decide, by decide⟩

/-- Claim C9: a zero-length chunk never triggers the cutoff: the first
candidate the budget walk leaves out always has non-empty content, and
a block of zero-length chunks at the front of the candidate list always
survives into the assembled context — also when `max_content = 0`. -/
theorem C9_zero_length_chunks (docs : List Document) (maxContent : Nat) :
    (∀ e : Document, docs[docNum docs maxContent]? = some e →
        e.page_content.length ≠ 0)
    ∧ ∀ k : Nat, (∀ d ∈ docs.take k, d.page_content.length = 0) →
        ∃ rest, docs.take k ++ rest = deleteRedundancy docs maxContent := by
  constructor
  · exact docNumFrom_stop_pos maxContent docs 0 (Nat.zero_le _)
  · intro k hz
    have hmin := docNumFrom_zeros_le maxContent docs 0 k (Nat.zero_le _) hz
    refine ⟨(deleteRedundancy docs maxContent).drop k, ?_⟩
    have h1 : docs.take k = (deleteRedundancy docs maxContent).take k := by
      rw [deleteRedundancy]
      exact take_take_of_min_le docs k (docNum docs maxContent) hmin
    rw [h1, List.take_append_drop]

/-- Claim C9 witness: with budget 0, a leading empty-content chunk
survives while the following 3-character chunk is the first one left
out. -/
theorem C9_zero_length_chunks_witness :
    dA0.page_content.length ≠ 0
    ∧ ∃ rest, [dEmpty, dA0].take 1 ++ rest = deleteRedundancy [dEmpty, dA0] 0 :=
  ⟨(C9_zero_length_chunks [dEmpty, dA0] 0).1 dA0 (by decide),
   (C9_zero_length_chunks [dEmpty, dA0] 0).2 1 (by decide)⟩

/-- Claim C10: with the sort flag on, every chunk surviving the budget
cutoff must carry both the `source` and the `chunk_index` metadata
keys: if any surviving chunk lacks one, the sort-key lambda raises
`KeyError` and `retrieval_and_rerank` fails instead of returning a
context; conversely a successfully returned context certifies that all
surviving chunks carry both keys. -/
theorem C10_sort_requires_metadata (docs : List Document) (maxContent : Nat) :
    ((∃ d ∈ deleteRedundancy docs maxContent,
        d.metadata.source = none ∨ d.metadata.chunk_index = none) →
      retrieval_and_rerank docs maxContent true = Except.error "KeyError")
    ∧ ∀ out, retrieval_and_rerank docs maxContent true = Except.ok out →
        ∀ d ∈ deleteRedundancy docs maxContent,
          d.metadata.source.isSome = true ∧ d.metadata.chunk_index.isSome = true := by
  constructor
  · rintro ⟨d, hd, hkey⟩
    have hall : (deleteRedundancy docs maxContent).all sortKeyDefined = false := by
      rw [List.all_eq_false]
      refine ⟨d, hd, ?_⟩
      cases hkey with
      | inl h => simp [sortKeyDefined, h]
      | inr h => simp [sortKeyDefined, h]
    simp [retrieval_and_rerank, hall]
  · intro out hout d hd
    by_cases hall : (deleteRedundancy docs maxContent).all sortKeyDefined = true
    · have := List.all_eq_true.mp hall d hd
      simpa [sortKeyDefined, Bool.and_eq_true] using this
    · exfalso
      simp [retrieval_and_rerank, hall] at hout

/-- Claim C10 witness: one in-budget chunk with neither metadata key;
the flag-on call fails with `KeyError`. -/
theorem C10_sort_requires_metadata_witness :
    retrieval_and_rerank [dNoMeta] 10 true = Except.error "KeyError" :=
  (C10_sort_requires_metadata [dNoMeta] 10).1
    ⟨dNoMeta, by decide, Or.inl rfl⟩

end BishengRag
